import Mathlib

/-!
Verification of the local sandbox orchestrator.

The definitions below are shallow embeddings of the Python sources:
`local_sandbox_manager.py` (PortManager, LocalSandboxManager),
`local_api_adapter.py` (LocalApiAdapter), `local_tool_base.py`
(LocalSandboxToolsBase.clean_path / validate_path).  Python `dict`s that are
only iterated or looked up by key are embedded as association lists in
insertion order; Python `set` becomes `Finset Nat`; raised exceptions become
`Except` errors carrying the error class and message.
-/

namespace Sandbox

/-! ## Port manager (`local_sandbox_manager.py`, class PortManager) -/

/-- The four role ranges, in the dict insertion order of
`PortManager.port_ranges`.  Bounds are inclusive, as in
`range(start, end + 1)`. -/
def port_ranges : List (String × Nat × Nat) :=
  [("vnc", 15901, 16000),
   ("novnc", 16080, 16179),
   ("browser_api", 17788, 17887),
   ("file_server", 18080, 18179)]

/-- `self.allocated_ports` (a Python set of ints). -/
structure PortManager where
  allocated_ports : Finset Nat
deriving DecidableEq

/-- The inner `for port in range(start, end + 1): if port not in
self.allocated_ports` scan: the lowest free port of the role range. -/
def findFreePort (allocated : Finset Nat) (lo hi : Nat) : Option Nat :=
  (List.range' lo (hi + 1 - lo)).find? (fun p => decide (p ∉ allocated))

/-- The loop body of `allocate_ports` over the remaining roles.  Mutation of
`self.allocated_ports` is threaded explicitly; when a role range is
exhausted the `RuntimeError` is returned together with the state at raise
time (ports taken for earlier roles are still in the set, as in the
source, which raises without releasing). -/
def allocatePortsAux : List (String × Nat × Nat) → Finset Nat →
    Except String (List (String × Nat)) × Finset Nat
  | [], allocated => (.ok [], allocated)
  | (service, lo, hi) :: rest, allocated =>
    match findFreePort allocated lo hi with
    | some p =>
      match allocatePortsAux rest (insert p allocated) with
      | (.ok ports, allocated') => (.ok ((service, p) :: ports), allocated')
      | (.error e, allocated') => (.error e, allocated')
    | none => (.error ("No available ports for service " ++ service), allocated)

/-- `PortManager.allocate_ports(project_id)`.  The `project_id` argument is
only logged by the source; it is kept for signature fidelity. -/
def PortManager.allocate_ports (pm : PortManager) (_project_id : String) :
    Except String (List (String × Nat)) × PortManager :=
  match allocatePortsAux port_ranges pm.allocated_ports with
  | (r, allocated) => (r, ⟨allocated⟩)

/-- `PortManager.release_ports(ports)`: discard every value of the dict. -/
def PortManager.release_ports (pm : PortManager) (ports : List (String × Nat)) :
    PortManager :=
  ⟨(ports.map Prod.snd).foldl Finset.erase pm.allocated_ports⟩

/-! ### Lemmas about allocation -/

theorem findFreePort_some {allocated : Finset Nat} {lo hi p : Nat}
    (h : findFreePort allocated lo hi = some p) :
    p ∉ allocated ∧ lo ≤ p ∧ p ≤ hi := by
  unfold findFreePort at h
  have hp := List.find?_some h
  have hmem := List.mem_of_find?_eq_some h
  rw [List.mem_range'_1] at hmem
  refine ⟨by simpa using hp, hmem.1, ?_⟩
  omega

theorem allocatePortsAux_ok {roles : List (String × Nat × Nat)}
    {allocated allocated' : Finset Nat} {ports : List (String × Nat)}
    (h : allocatePortsAux roles allocated = (.ok ports, allocated')) :
    List.Forall₂ (fun r sp => sp.1 = r.1 ∧ r.2.1 ≤ sp.2 ∧ sp.2 ≤ r.2.2)
      roles ports ∧
    (∀ p ∈ ports.map Prod.snd, p ∉ allocated) ∧
    (ports.map Prod.snd).Nodup ∧
    allocated' = allocated ∪ (ports.map Prod.snd).toFinset := by
  induction roles generalizing allocated allocated' ports with
  | nil =>
    simp only [allocatePortsAux, Prod.mk.injEq, Except.ok.injEq] at h
    obtain ⟨rfl, rfl⟩ := h
    simp
  | cons role rest ih =>
    obtain ⟨service, lo, hi⟩ := role
    rw [allocatePortsAux] at h
    split at h
    case h_2 => simp at h
    case h_1 p hfind =>
      obtain ⟨hfree, hlo, hhi⟩ := findFreePort_some hfind
      split at h
      case h_2 => simp at h
      case h_1 restPorts rest_alloc hrec =>
        simp only [Prod.mk.injEq, Except.ok.injEq] at h
        obtain ⟨rfl, rfl⟩ := h
        obtain ⟨hf2, hfresh, hnodup, hunion⟩ := ih hrec
        refine ⟨.cons ⟨rfl, hlo, hhi⟩ hf2, ?_, ?_, ?_⟩
        · intro q hq
          simp only [List.map_cons, List.mem_cons] at hq
          rcases hq with rfl | hq
          · exact hfree
          · intro hin
            exact hfresh q hq (Finset.mem_insert_of_mem hin)
        · refine List.Nodup.cons ?_ hnodup
          intro hp
          exact hfresh p hp (Finset.mem_insert_self p allocated)
        · rw [hunion]
          ext q
          simp only [Finset.mem_union, Finset.mem_insert, List.map_cons,
            List.mem_toFinset, List.mem_cons]
          tauto

theorem allocatePortsAux_error {roles : List (String × Nat × Nat)}
    {allocated allocated' : Finset Nat} {e : String}
    (h : allocatePortsAux roles allocated = (.error e, allocated')) :
    allocated ⊆ allocated' := by
  induction roles generalizing allocated allocated' with
  | nil => simp [allocatePortsAux] at h
  | cons role rest ih =>
    obtain ⟨service, lo, hi⟩ := role
    rw [allocatePortsAux] at h
    split at h
    case h_2 =>
      simp only [Prod.mk.injEq] at h
      exact h.2 ▸ Finset.Subset.refl _
    case h_1 p hfind =>
      split at h
      case h_1 => simp at h
      case h_2 e' rest_alloc hrec =>
        simp only [Prod.mk.injEq, Except.error.injEq] at h
        obtain ⟨rfl, rfl⟩ := h
        exact fun q hq => ih hrec (Finset.mem_insert_of_mem hq)

theorem forall₂_map_fst {rs : List (String × Nat × Nat)}
    {ps : List (String × Nat)}
    (h : List.Forall₂ (fun r sp => sp.1 = r.1 ∧ r.2.1 ≤ sp.2 ∧ sp.2 ≤ r.2.2)
      rs ps) :
    ps.map Prod.fst = rs.map Prod.fst := by
  induction h with
  | nil => rfl
  | cons hrel _ ih => simp [ih, hrel.1]

/-- A port manager whose whole `novnc` range is taken while `vnc` is free:
the allocation request takes a `vnc` port and then fails on `novnc`. -/
def pmNovncFull : PortManager := ⟨(List.range' 16080 100).toFinset⟩

set_option maxRecDepth 40000 in
/-- C1 counterexample: on `pmNovncFull`, `allocate_ports` raises the
ports-exhausted `RuntimeError` for `novnc`, yet the allocated-port set is
not left as it was — the `vnc` port 15901 taken earlier in the same request
stays allocated instead of being released. -/
theorem allocate_ports_not_atomic :
    (pmNovncFull.allocate_ports "p").1 =
      .error "No available ports for service novnc" ∧
    (pmNovncFull.allocate_ports "p").2.allocated_ports ≠
      pmNovncFull.allocated_ports := by
  constructor
  · rfl
  · decide

/-- C1 amended: each call to `allocate_ports` either gives every one of the
four roles (in order `vnc`, `novnc`, `browser_api`, `file_server`) a port,
recording exactly those ports as allocated, or fails with a ports-exhausted
error; on failure the ports taken earlier in the same request REMAIN
allocated (the set never shrinks), so a failed allocation is not rolled
back. -/
theorem allocate_ports_all_roles_or_leak (pm : PortManager) (pid : String) :
    match pm.allocate_ports pid with
    | (.ok ports, pm') =>
        ports.map Prod.fst = ["vnc", "novnc", "browser_api", "file_server"] ∧
        pm'.allocated_ports =
          pm.allocated_ports ∪ (ports.map Prod.snd).toFinset
    | (.error _, pm') => pm.allocated_ports ⊆ pm'.allocated_ports := by
  unfold PortManager.allocate_ports
  cases hrun : allocatePortsAux port_ranges pm.allocated_ports with
  | mk r allocated' =>
    cases r with
    | ok ports =>
      obtain ⟨hf2, _, _, hunion⟩ := allocatePortsAux_ok hrun
      exact ⟨forall₂_map_fst hf2, hunion⟩
    | error e => exact allocatePortsAux_error hrun

/-! ## Port-holding across allocate/release sequences (C3)

`release_ports` is invoked by the manager in exactly two places: on the
ports of a live sandbox being deleted (`delete_sandbox`, line 307) and on
the just-allocated ports of a create whose later engine step failed
(`create_sandbox`, line 194).  The step system below replays those call
patterns against the port manager and tracks which sandboxes are live and
which ports each holds. -/

/-- The relation a successful allocation establishes between the role table
and the returned role/port pairs. -/
def RolePortsOf (roles : List (String × Nat × Nat))
    (ports : List (String × Nat)) : Prop :=
  List.Forall₂ (fun r sp => sp.1 = r.1 ∧ r.2.1 ≤ sp.2 ∧ sp.2 ≤ r.2.2)
    roles ports

inductive PortOp where
  | create (pid : String)
  | createFail (pid : String)
  | delete (pid : String)

structure PortSys where
  pm : PortManager
  live : List (String × List (String × Nat))

def PortSys.init : PortSys := ⟨⟨∅⟩, []⟩

/-- One manager-level use of the port manager: `create` records the
allocation for a new live sandbox; `createFail` allocates and then releases
the same ports (the create-failure cleanup path); `delete` releases the
ports held by the named live sandbox and forgets it. -/
def portStep (s : PortSys) : PortOp → PortSys
  | .create pid =>
    match s.pm.allocate_ports pid with
    | (.ok ports, pm') => ⟨pm', (pid, ports) :: s.live⟩
    | (.error _, pm') => ⟨pm', s.live⟩
  | .createFail pid =>
    match s.pm.allocate_ports pid with
    | (.ok ports, pm') => ⟨pm'.release_ports ports, s.live⟩
    | (.error _, pm') => ⟨pm', s.live⟩
  | .delete pid =>
    match s.live.find? (fun e => e.1 == pid) with
    | some entry =>
      ⟨s.pm.release_ports entry.2, s.live.filter (fun e => ¬ (e.1 == pid))⟩
    | none => s

def PortSys.run (ops : List PortOp) : PortSys := ops.foldl portStep .init

/-- All host ports held by live sandboxes, with multiplicity. -/
def livePorts : List (String × List (String × Nat)) → List Nat
  | [] => []
  | e :: rest => e.2.map Prod.snd ++ livePorts rest

theorem livePorts_append (l₁ l₂ : List (String × List (String × Nat))) :
    livePorts (l₁ ++ l₂) = livePorts l₁ ++ livePorts l₂ := by
  induction l₁ with
  | nil => rfl
  | cons e rest ih => simp [livePorts, ih]

theorem livePorts_sublist {l₁ l₂ : List (String × List (String × Nat))}
    (h : l₁.Sublist l₂) : (livePorts l₁).Sublist (livePorts l₂) := by
  induction h with
  | slnil => exact .refl _
  | cons e _ ih =>
    exact ih.trans (List.sublist_append_right _ _)
  | cons₂ e _ ih => exact ih.append_left _

theorem foldl_erase_eq_sdiff (l : List Nat) (s : Finset Nat) :
    l.foldl Finset.erase s = s \ l.toFinset := by
  induction l generalizing s with
  | nil => simp
  | cons a l ih =>
    rw [List.foldl_cons, ih]
    ext q
    simp only [Finset.mem_sdiff, Finset.mem_erase, List.toFinset_cons,
      Finset.mem_insert, List.mem_toFinset]
    tauto

/-- The invariant: every live sandbox's ports line up with the declared
role ranges, no port is held twice, and every held port is tracked as
allocated by the port manager. -/
structure PortInv (s : PortSys) : Prop where
  ranged : ∀ e ∈ s.live, RolePortsOf port_ranges e.2
  nodup : (livePorts s.live).Nodup
  tracked : ∀ p ∈ livePorts s.live, p ∈ s.pm.allocated_ports

theorem portInv_init : PortInv .init :=
  ⟨fun _ h => (nomatch h), List.nodup_nil, fun _ h => (nomatch h)⟩

theorem portInv_step {s : PortSys} (inv : PortInv s) (op : PortOp) :
    PortInv (portStep s op) := by
  obtain ⟨ranged, nodup, tracked⟩ := inv
  cases op with
  | create pid =>
    show PortInv (portStep s (.create pid))
    rw [portStep]
    cases halloc : s.pm.allocate_ports pid with
    | mk r pm' =>
      cases r with
      | error e =>
        have hsub : s.pm.allocated_ports ⊆ pm'.allocated_ports := by
          have := allocate_ports_all_roles_or_leak s.pm pid
          rw [halloc] at this
          exact this
        exact ⟨ranged, nodup, fun p hp => hsub (tracked p hp)⟩
      | ok ports =>
        have haux : allocatePortsAux port_ranges s.pm.allocated_ports =
            (.ok ports, pm'.allocated_ports) := by
          have h1 := congrArg Prod.fst halloc
          have h2 := congrArg Prod.snd halloc
          unfold PortManager.allocate_ports at h1 h2
          cases hrun : allocatePortsAux port_ranges s.pm.allocated_ports with
          | mk rr aa =>
            rw [hrun] at h1 h2
            simp only at h1 h2
            rw [h1, ← h2]
        obtain ⟨hf2, hfresh, hnodup, hunion⟩ := allocatePortsAux_ok haux
        refine ⟨?_, ?_, ?_⟩
        · intro e he
          rcases List.mem_cons.mp he with rfl | he
          · exact hf2
          · exact ranged e he
        · show ((pid, ports).2.map Prod.snd ++ livePorts s.live).Nodup
          rw [List.nodup_append]
          refine ⟨hnodup, nodup, ?_⟩
          intro q hq hq'
          exact hfresh q hq (tracked q hq')
        · intro p hp
          rw [hunion]
          rcases List.mem_append.mp hp with hp | hp
          · exact Finset.mem_union_right _ (List.mem_toFinset.mpr hp)
          · exact Finset.mem_union_left _ (tracked p hp)
  | createFail pid =>
    show PortInv (portStep s (.createFail pid))
    rw [portStep]
    cases halloc : s.pm.allocate_ports pid with
    | mk r pm' =>
      cases r with
      | error e =>
        have hsub : s.pm.allocated_ports ⊆ pm'.allocated_ports := by
          have := allocate_ports_all_roles_or_leak s.pm pid
          rw [halloc] at this
          exact this
        exact ⟨ranged, nodup, fun p hp => hsub (tracked p hp)⟩
      | ok ports =>
        have haux : allocatePortsAux port_ranges s.pm.allocated_ports =
            (.ok ports, pm'.allocated_ports) := by
          have h1 := congrArg Prod.fst halloc
          have h2 := congrArg Prod.snd halloc
          unfold PortManager.allocate_ports at h1 h2
          cases hrun : allocatePortsAux port_ranges s.pm.allocated_ports with
          | mk rr aa =>
            rw [hrun] at h1 h2
            simp only at h1 h2
            rw [h1, ← h2]
        obtain ⟨_, hfresh, _, hunion⟩ := allocatePortsAux_ok haux
        refine ⟨ranged, nodup, ?_⟩
        intro p hp
        show p ∈ (pm'.release_ports ports).allocated_ports
        rw [PortManager.release_ports, foldl_erase_eq_sdiff]
        rw [Finset.mem_sdiff, hunion]
        refine ⟨Finset.mem_union_left _ (tracked p hp), ?_⟩
        intro hmem
        exact hfresh p (List.mem_toFinset.mp hmem) (tracked p hp)
  | delete pid =>
    show PortInv (portStep s (.delete pid))
    rw [portStep]
    cases hfind : s.live.find? (fun e => e.1 == pid) with
    | none => exact ⟨ranged, nodup, tracked⟩
    | some entry =>
      have hmem : entry ∈ s.live := List.mem_of_find?_eq_some hfind
      obtain ⟨l₁, l₂, hsplit⟩ := List.append_of_mem hmem
      have hentry_pid := List.find?_some hfind
      have hfilter : s.live.filter (fun e => ¬ (e.1 == pid)) =
          l₁.filter (fun e => ¬ (e.1 == pid)) ++
          l₂.filter (fun e => ¬ (e.1 == pid)) := by
        rw [hsplit, List.filter_append, List.filter_cons]
        simp [hentry_pid]
      have hports_split : livePorts s.live =
          livePorts l₁ ++ (entry.2.map Prod.snd ++ livePorts l₂) := by
        rw [hsplit, livePorts_append]
        rfl
      have hnodup3 := hports_split ▸ nodup
      rw [List.nodup_append] at hnodup3
      obtain ⟨hndA, hndPB, hdisjA⟩ := hnodup3
      rw [List.nodup_append] at hndPB
      obtain ⟨hndP, hndB, hdisjPB⟩ := hndPB
      have hkept_not_released :
          ∀ q ∈ livePorts (s.live.filter (fun e => ¬ (e.1 == pid))),
            q ∉ entry.2.map Prod.snd := by
        intro q hq
        rw [hfilter, livePorts_append] at hq
        rcases List.mem_append.mp hq with hq | hq
        · have hqA : q ∈ livePorts l₁ :=
            (livePorts_sublist (List.filter_sublist l₁)).mem hq
          intro hqP
          exact hdisjA hqA (List.mem_append_left _ hqP)
        · have hqB : q ∈ livePorts l₂ :=
            (livePorts_sublist (List.filter_sublist l₂)).mem hq
          intro hqP
          exact hdisjPB hqP hqB
      refine ⟨?_, ?_, ?_⟩
      · intro e he
        exact ranged e (List.mem_of_mem_filter he)
      · exact (livePorts_sublist (List.filter_sublist s.live)).nodup nodup
      · intro p hp
        show p ∈ (s.pm.release_ports entry.2).allocated_ports
        rw [PortManager.release_ports, foldl_erase_eq_sdiff, Finset.mem_sdiff]
        have hp_live : p ∈ livePorts s.live :=
          (livePorts_sublist (List.filter_sublist s.live)).mem hp
        refine ⟨tracked p hp_live, ?_⟩
        intro hmem'
        exact hkept_not_released p hp (List.mem_toFinset.mp hmem')

theorem portInv_run (ops : List PortOp) : PortInv (PortSys.run ops) := by
  rw [PortSys.run]
  induction ops using List.reverseRecOn with
  | nil => exact portInv_init
  | append_singleton ops op ih =>
    rw [List.foldl_append, List.foldl_cons, List.foldl_nil]
    exact portInv_step ih op

theorem rolePortsOf_mem {ports : List (String × Nat)}
    (h : RolePortsOf port_ranges ports) {rp : String × Nat}
    (hm : rp ∈ ports) :
    (rp.1 = "vnc" ∧ 15901 ≤ rp.2 ∧ rp.2 ≤ 16000) ∨
    (rp.1 = "novnc" ∧ 16080 ≤ rp.2 ∧ rp.2 ≤ 16179) ∨
    (rp.1 = "browser_api" ∧ 17788 ≤ rp.2 ∧ rp.2 ≤ 17887) ∨
    (rp.1 = "file_server" ∧ 18080 ≤ rp.2 ∧ rp.2 ≤ 18179) := by
  rw [RolePortsOf, port_ranges] at h
  rcases h with _ | ⟨h1, _ | ⟨h2, _ | ⟨h3, _ | ⟨h4, _ | _⟩⟩⟩⟩
  simp only [List.mem_cons, List.not_mem_nil, or_false] at hm
  rcases hm with rfl | rfl | rfl | rfl
  · exact .inl h1
  · exact .inr (.inl h2)
  · exact .inr (.inr (.inl h3))
  · exact .inr (.inr (.inr h4))

/-- C3: after any sequence of manager-driven allocate/release operations,
every port held by a live sandbox lies in its role's declared inclusive
range (`vnc` 15901–16000, `novnc` 16080–16179, `browser_api` 17788–17887,
`file_server` 18080–18179), and no host port is held by two live sandboxes
or by two roles at once. -/
theorem live_ports_ranged_and_unique (ops : List PortOp) :
    (∀ e ∈ (PortSys.run ops).live, ∀ rp ∈ e.2,
      (rp.1 = "vnc" ∧ 15901 ≤ rp.2 ∧ rp.2 ≤ 16000) ∨
      (rp.1 = "novnc" ∧ 16080 ≤ rp.2 ∧ rp.2 ≤ 16179) ∨
      (rp.1 = "browser_api" ∧ 17788 ≤ rp.2 ∧ rp.2 ≤ 17887) ∨
      (rp.1 = "file_server" ∧ 18080 ≤ rp.2 ∧ rp.2 ≤ 18179)) ∧
    (livePorts (PortSys.run ops).live).Nodup := by
  obtain ⟨ranged, nodup, _⟩ := portInv_run ops
  exact ⟨fun e he rp hrp => rolePortsOf_mem (ranged e he) hrp, nodup⟩

/-! ## Path sanitisation (`local_tool_base.py`, clean_path / validate_path)

Python `str` values are embedded as `List Char`.  `os.path.normpath` is the
CPython `posixpath.normpath` algorithm. -/

/-- The characters of the literal `'/workspace'`. -/
def wsChars : List Char := ['/', 'w', 'o', 'r', 'k', 's', 'p', 'a', 'c', 'e']

/-- The character class of `re.sub(r'[<>:"|?*]', '', path)`. -/
def dangerChars : List Char := ['<', '>', ':', '"', '|', '?', '*']

def stripDanger (p : List Char) : List Char :=
  p.filter (fun c => !(dangerChars.contains c))

/-- Python `path.split('/')`. -/
def splitSl : List Char → List (List Char)
  | [] => [[]]
  | c :: rest =>
    if c = '/' then [] :: splitSl rest
    else
      match splitSl rest with
      | comp :: comps => (c :: comp) :: comps
      | [] => [[c]]

/-- `initial_slashes` of `posixpath.normpath`: 0, 1, or 2 (two leading
slashes are preserved by POSIX, three or more collapse to one). -/
def initialSlashes (p : List Char) : Nat :=
  if p.take 1 = ['/'] then
    if p.take 2 = ['/', '/'] ∧ p.take 3 ≠ ['/', '/', '/'] then 2 else 1
  else 0

/-- The component loop of `posixpath.normpath`: drop empty and `.`
components, resolve `..` against a previous real component where
possible. -/
def normComps (slashes : Nat) (comps : List (List Char)) :
    List (List Char) :=
  comps.foldl (fun acc comp =>
    if comp = [] ∨ comp = ['.'] then acc
    else if comp ≠ ['.', '.'] ∨ (slashes = 0 ∧ acc = []) ∨
        acc.getLast? = some ['.', '.'] then acc ++ [comp]
    else if acc ≠ [] then acc.dropLast
    else acc) []

/-- `os.path.normpath` (POSIX flavour). -/
def normpath (p : List Char) : List Char :=
  if p = [] then ['.']
  else
    let slashes := initialSlashes p
    let joined := List.intercalate ['/'] (normComps slashes (splitSl p))
    let out := List.replicate slashes '/' ++ joined
    if out = [] then ['.'] else out

/-- `re.sub(r'/+', '/', path)`: collapse runs of slashes.  The Bool records
whether the previously emitted character was a slash. -/
def collapseAux : Bool → List Char → List Char
  | _, [] => []
  | prevSlash, c :: rest =>
    if c = '/' then
      if prevSlash then collapseAux true rest
      else '/' :: collapseAux true rest
    else c :: collapseAux false rest

/-- Python `s.startswith(pre)`. -/
def startsWithL : List Char → List Char → Bool
  | _, [] => true
  | [], _ :: _ => false
  | c :: cs, p :: ps => c == p && startsWithL cs ps

/-- The reparenting step of `clean_path`: if the normalised path does not
begin with `/workspace`, prepend it (absolute paths are reparented,
relative paths join under the workspace). -/
def ensureWorkspace (p : List Char) : List Char :=
  if startsWithL p wsChars then p
  else if startsWithL p ['/'] then wsChars ++ p
  else wsChars ++ '/' :: p

/-- `LocalSandboxToolsBase.clean_path`. -/
def clean_path (p : List Char) : List Char :=
  if p = [] then wsChars
  else collapseAux false (ensureWorkspace (normpath (stripDanger p)))

/-- Whether `..` occurs as a path component (a `..` token). -/
def hasDotDotToken (p : List Char) : Bool :=
  splitSl p |>.contains ['.', '.']

/-- Python `'..' in path` (substring containment). -/
def hasDotDotSub : List Char → Bool
  | [] => false
  | c :: rest => (c == '.' && rest.take 1 == ['.']) || hasDotDotSub rest

/-- `LocalSandboxToolsBase.validate_path`. -/
def validate_path (p : List Char) : Bool :=
  if p = [] then false
  else if hasDotDotSub p || startsWithL p ['~'] then false
  else if !(startsWithL (normpath p) wsChars) then false
  else true

theorem startsWithL_append (pre s : List Char) :
    startsWithL (pre ++ s) pre = true := by
  induction pre with
  | nil => cases s <;> rfl
  | cons c cs ih => simp [startsWithL, ih]

theorem startsWithL_exists {s pre : List Char}
    (h : startsWithL s pre = true) : ∃ t, s = pre ++ t := by
  induction pre generalizing s with
  | nil => exact ⟨s, rfl⟩
  | cons c cs ih =>
    cases s with
    | nil => simp [startsWithL] at h
    | cons a as =>
      rw [startsWithL, Bool.and_eq_true, beq_iff_eq] at h
      obtain ⟨rfl, h⟩ := h
      obtain ⟨t, rfl⟩ := ih h
      exact ⟨t, rfl⟩

theorem collapseAux_ws (t : List Char) :
    collapseAux false (wsChars ++ t) = wsChars ++ collapseAux false t := by
  simp [wsChars, collapseAux]

theorem ensureWorkspace_shape (p : List Char) :
    ∃ t, ensureWorkspace p = wsChars ++ t := by
  rw [ensureWorkspace]
  split
  case isTrue h => exact startsWithL_exists h
  case isFalse =>
    split
    · exact ⟨p, rfl⟩
    · exact ⟨'/' :: p, rfl⟩

/-- C2 counterexample: `clean_path('..')` is `/workspace/..` — the `..`
survives, because normalisation happens before the `/workspace` prefix is
attached, so the sanitized result contains a `..` token, contradicting the
claim. -/
theorem clean_path_dotdot_escapes :
    clean_path ['.', '.'] = wsChars ++ ['/', '.', '.'] ∧
    hasDotDotToken (clean_path ['.', '.']) = true := by
  constructor
  · rfl
  · decide

/-- C2 amended: the sanitized result always begins with `/workspace`, but
the no-`..` half of the claim holds only as a rejection: `..` components
that survive normalisation (leading `..` of relative paths, or `..` past
the root) stay in the result, and any such result is refused by the
companion `validate_path` check rather than cleaned. -/
theorem clean_path_ws_and_validate (p : List Char) :
    startsWithL (clean_path p) wsChars = true ∧
    (hasDotDotSub (clean_path p) = true →
      validate_path (clean_path p) = false) := by
  have hws : startsWithL (clean_path p) wsChars = true := by
    rw [clean_path]
    split
    · decide
    · obtain ⟨t, ht⟩ := ensureWorkspace_shape (normpath (stripDanger p))
      rw [ht, collapseAux_ws]
      exact startsWithL_append _ _
  refine ⟨hws, fun hdd => ?_⟩
  rw [validate_path]
  split
  case isTrue => rfl
  case isFalse => simp [hdd]

/-- C2 amendment witness at a concrete input: the sanitized `../secret`
still begins with `/workspace`, and `validate_path` rejects it. -/
theorem clean_path_ws_and_validate_witness :
    validate_path (clean_path ['.', '.', '/', 's']) = false :=
  (clean_path_ws_and_validate ['.', '.', '/', 's']).2 (by decide)

/-! ## Sandbox manager (`local_sandbox_manager.py`, LocalSandboxManager)

Engine state is the data the manager reads and writes through the Docker
client: containers (name, labels, port bindings, status) and named
volumes.  Exceptions are embedded by their Python class: `ValueError`
raised by the manager itself, `RuntimeError` from the port manager,
and Docker/engine errors. -/

inductive PyErr where
  | valueError (msg : String)
  | runtimeError (msg : String)
  | dockerError (msg : String)
deriving DecidableEq

structure ContainerRec where
  name : String
  labels : List (String × String)
  bindings : List (String × List Nat)
  status : String
deriving DecidableEq

structure Engine where
  containers : List ContainerRec
  volumes : List String
deriving DecidableEq

structure SandboxConfig where
  project_id : String
  vnc_password : String := "vncpassword"
  resolution : String := "1024x768x24"
  cpu_limit : Nat := 2
  memory_limit : String := "4g"
  disk_limit : String := "10g"
  auto_stop_hours : Nat := 24
deriving DecidableEq

/-- One value of `self.containers[project_id]` (a cache entry). -/
structure CacheEntry where
  pid : String
  containerName : String
  ports : List (String × Nat)
  config : SandboxConfig
  created_at : String
  volume_name : String
deriving DecidableEq

structure MgrState where
  cache : List CacheEntry
  pm : PortManager
  engine : Engine
deriving DecidableEq

def lookupAssoc {α : Type} (kvs : List (String × α)) (key : String) :
    Option α :=
  (kvs.find? (fun kv => kv.1 == key)).map Prod.snd

def findContainer (e : Engine) (n : String) : Option ContainerRec :=
  e.containers.find? (fun c => c.name == n)

def findEntry (cache : List CacheEntry) (pid : String) : Option CacheEntry :=
  cache.find? (fun e => e.pid == pid)

def container_name (pid : String) : String := "suna-sandbox-" ++ pid

def workspace_volume_name (pid : String) : String := "suna-workspace-" ++ pid

/-- `port_mapping` of `_extract_ports_from_container`. -/
def port_mapping : List (String × String) :=
  [("5901/tcp", "vnc"), ("6080/tcp", "novnc"),
   ("7788/tcp", "browser_api"), ("8080/tcp", "file_server")]

/-- `LocalSandboxManager._extract_ports_from_container`: walk the
`NetworkSettings.Ports` table; keep a binding when it is non-empty and its
internal port is one of the four known ones. -/
def extract_ports_from_container (c : ContainerRec) :
    List (String × Nat) :=
  c.bindings.foldl (fun acc kv =>
    match kv.2 with
    | [] => acc
    | hostPort :: _ =>
      match lookupAssoc port_mapping kv.1 with
      | some role => acc ++ [(role, hostPort)]
      | none => acc) []

/-- The `'ports'` map of the container spec built by `create_sandbox`
(`{'5901/tcp': ports['vnc'], ...}`). -/
def bindingsOfPorts (ports : List (String × Nat)) :
    List (String × List Nat) :=
  [("5901/tcp", (lookupAssoc ports "vnc").toList),
   ("6080/tcp", (lookupAssoc ports "novnc").toList),
   ("7788/tcp", (lookupAssoc ports "browser_api").toList),
   ("8080/tcp", (lookupAssoc ports "file_server").toList)]

/-- `LocalSandboxManager.create_sandbox`.  `nowStr`/`autoStopStr` stand for
the `datetime.now()`/`now + auto_stop_hours` label strings.  The readiness
wait never raises and does not change engine bookkeeping (see
`_wait_for_services` below), so it is a no-op here. -/
def create_sandbox (s : MgrState) (config : SandboxConfig)
    (nowStr autoStopStr : String) : Except PyErr String × MgrState :=
  let pid := config.project_id
  let cname := container_name pid
  if (findEntry s.cache pid).isSome then
    (.error (.valueError ("Sandbox for project " ++ pid ++
      " already exists")), s)
  else
    match s.pm.allocate_ports pid with
    | (.error e, pm') => (.error (.runtimeError e), { s with pm := pm' })
    | (.ok ports, pm') =>
      let vname := workspace_volume_name pid
      let volumes' := if s.engine.volumes.contains vname then
          s.engine.volumes
        else s.engine.volumes ++ [vname]
      if (findContainer s.engine cname).isSome then
        (.error (.dockerError ("409 Client Error: Conflict for container " ++
           cname)),
         { cache := s.cache, pm := pm'.release_ports ports,
           engine := { containers := s.engine.containers,
                       volumes := volumes' } })
      else
        let newC : ContainerRec :=
          { name := cname,
            labels := [("suna.project_id", pid),
                       ("suna.created_at", nowStr),
                       ("suna.auto_stop_at", autoStopStr)],
            bindings := bindingsOfPorts ports,
            status := "running" }
        let entry : CacheEntry :=
          { pid := pid, containerName := cname, ports := ports,
            config := config, created_at := nowStr, volume_name := vname }
        (.ok cname,
         { cache := entry :: s.cache, pm := pm',
           engine := { containers := newC :: s.engine.containers,
                       volumes := volumes' } })

structure SandboxInfo where
  id : String
  name : String
  status : String
  ports : List (String × Nat)
  created_at : String
deriving DecidableEq

/-- `LocalSandboxManager.get_sandbox`.  On a cache hit the container is
reloaded (a missing container surfaces the engine's not-found error); on a
miss the container is looked up by name, the cache entry is reconstructed
from labels and port bindings, and the recursive call then hits the
cache. -/
def get_sandbox (s : MgrState) (pid : String) :
    Except PyErr SandboxInfo × MgrState :=
  match findEntry s.cache pid with
  | some entry =>
    match findContainer s.engine entry.containerName with
    | none => (.error (.dockerError ("404 Client Error: no such container " ++
        entry.containerName)), s)
    | some c =>
      (.ok { id := c.name, name := c.name, status := c.status,
             ports := entry.ports, created_at := entry.created_at }, s)
  | none =>
    match findContainer s.engine (container_name pid) with
    | some c =>
      if lookupAssoc c.labels "suna.project_id" == some pid then
        let ports := extract_ports_from_container c
        let entry : CacheEntry :=
          { pid := pid, containerName := container_name pid, ports := ports,
            config := { project_id := pid },
            created_at := (lookupAssoc c.labels "suna.created_at").getD "",
            volume_name := workspace_volume_name pid }
        let s' : MgrState := { s with cache := entry :: s.cache }
        match findContainer s'.engine entry.containerName with
        | none => (.error (.dockerError
            ("404 Client Error: no such container " ++
             entry.containerName)), s')
        | some c' =>
          (.ok { id := c'.name, name := c'.name, status := c'.status,
                 ports := entry.ports, created_at := entry.created_at }, s')
      else
        (.error (.valueError ("Sandbox for project " ++ pid ++
          " not found")), s)
    | none =>
      (.error (.valueError ("Sandbox for project " ++ pid ++
        " not found")), s)

/-- `LocalSandboxManager.delete_sandbox`: stop (best effort), force-remove
the container, remove the volume (ignoring not-found), release the entry's
ports, drop the cache entry; raise `ValueError` when the project is not in
the cache. -/
def delete_sandbox (s : MgrState) (pid : String) :
    Except PyErr Unit × MgrState :=
  match findEntry s.cache pid with
  | some entry =>
    (.ok (),
     { cache := s.cache.filter (fun e => ¬ (e.pid == pid)),
       pm := s.pm.release_ports entry.ports,
       engine :=
         { containers :=
             s.engine.containers.filter
               (fun c => ¬ (c.name == entry.containerName)),
           volumes :=
             s.engine.volumes.filter
               (fun v => ¬ (v == entry.volume_name)) } })
  | none =>
    (.error (.valueError ("Sandbox for project " ++ pid ++ " not found")), s)

/-- `LocalSandboxManager.cleanup_expired_sandboxes`.  `parseIso` stands for
`datetime.fromisoformat` (`none` = `ValueError`, which the source logs and
skips); `now` is `datetime.now()`.  Errors from `delete_sandbox` are caught
and logged, so the sweep itself never fails. -/
def cleanup_expired_sandboxes (s : MgrState)
    (parseIso : String → Option Int) (now : Int) : MgrState :=
  let labelled := s.engine.containers.filter
    (fun c => (lookupAssoc c.labels "suna.auto_stop_at").isSome)
  let expired := labelled.foldl (fun acc c =>
    match lookupAssoc c.labels "suna.auto_stop_at" with
    | none => acc
    | some tstr =>
      match parseIso tstr with
      | none => acc
      | some t =>
        if now > t then
          match lookupAssoc c.labels "suna.project_id" with
          | some pid => acc ++ [pid]
          | none => acc
        else acc) []
  expired.foldl (fun st pid => (delete_sandbox st pid).2) s

/-! ## Workspace adapter (`local_api_adapter.py`, LocalApiAdapter) -/

/-- Result of `container.exec_run` as the adapter consumes it. -/
structure ExecOut where
  exitCode : Int
  output : String
deriving DecidableEq

/-- An adapter `execute_command` result dictionary. -/
structure ExecCmdResult where
  exit_code : Int
  stdout : String
  stderr : String
  success : Bool
deriving DecidableEq

/-- Python's `str(e)` on an embedded exception. -/
def errStr : PyErr → String
  | .valueError m => m
  | .runtimeError m => m
  | .dockerError m => m

/-- `LocalApiAdapter.execute_command`.  `engineExec` is the engine's exec
operation (command, workdir); any exception it raises is caught by the
adapter's `except` block, as is any failure of the initial lookup. -/
def execute_command (s : MgrState)
    (engineExec : String → String → Except String ExecOut)
    (pid command workdir : String) : ExecCmdResult × MgrState :=
  match get_sandbox s pid with
  | (.error e, s') =>
    ({ exit_code := -1, stdout := "", stderr := errStr e,
       success := false }, s')
  | (.ok _, s') =>
    match findEntry s'.cache pid with
    | none =>
      ({ exit_code := -1, stdout := "", stderr := "KeyError: " ++ pid,
         success := false }, s')
    | some entry =>
      match findContainer s'.engine entry.containerName with
      | none =>
        ({ exit_code := -1, stdout := "",
           stderr := "404 Client Error: no such container " ++
             entry.containerName,
           success := false }, s')
      | some c =>
        if c.status ≠ "running" then
          ({ exit_code := -1, stdout := "",
             stderr := "Container is not running (status: " ++ c.status ++
               ")",
             success := false }, s')
        else
          match engineExec command workdir with
          | .ok r =>
            ({ exit_code := r.exitCode, stdout := r.output, stderr := "",
               success := r.exitCode == 0 }, s')
          | .error e =>
            ({ exit_code := -1, stdout := "", stderr := e,
               success := false }, s')

structure LocalWorkspace where
  id : String
  name : String
  project_id : String
  status : String
  ports : List (String × Nat)
deriving DecidableEq

def mkWorkspace (pid : String) (info : SandboxInfo) : LocalWorkspace :=
  { id := pid, name := "workspace-" ++ pid, project_id := pid,
    status := info.status, ports := info.ports }

/-- `LocalApiAdapter.get_workspace`: `except ValueError: return None` and
`except Exception: log; return None`. -/
def get_workspace (s : MgrState) (pid : String) :
    Option LocalWorkspace × MgrState :=
  match get_sandbox s pid with
  | (.ok info, s') => (some (mkWorkspace pid info), s')
  | (.error (.valueError _), s') => (none, s')
  | (.error _, s') => (none, s')

/-! ## C4: duplicate create -/

/-- A state with no cache entry and no ports taken, but whose engine
already holds a (stopped) container named `suna-sandbox-p1` and no
workspace volume. -/
def preC4 : MgrState :=
  { cache := [], pm := ⟨∅⟩,
    engine :=
      { containers := [{ name := "suna-sandbox-p1",
                         labels := [("suna.project_id", "p1")],
                         bindings := [], status := "exited" }],
        volumes := [] } }

/-- C4 counterexample: with `suna-sandbox-p1` present in the engine but
`p1` absent from the cache, `create_sandbox` does not fail with the
already-exists `ValueError` — it fails with the engine's name-conflict
error — and it creates the workspace volume, which remains after the
failure, contradicting "no ports are allocated and no container or volume
is created". -/
theorem create_sandbox_engine_duplicate_creates_volume :
    (create_sandbox preC4 { project_id := "p1" } "t0" "t1").1 =
      .error (.dockerError
        "409 Client Error: Conflict for container suna-sandbox-p1") ∧
    (create_sandbox preC4 { project_id := "p1" } "t0" "t1").2.engine.volumes
      = ["suna-workspace-p1"] := by
  constructor
  · rfl
  · rfl

/-- C4 amended: `create_sandbox` rejects with the already-exists
`ValueError` — leaving the state untouched, so no ports, container or
volume — exactly when the `project_id` is already in the manager's cache.
When instead only a container of that name exists in the engine, creation
still fails, but with the engine's name-conflict error, after transiently
allocating ports (released again, so the allocator ends unchanged) and
after creating the workspace volume if it was absent; the volume is kept,
and the cache and container list are unchanged. -/
theorem create_sandbox_duplicate_behaviour (s : MgrState)
    (config : SandboxConfig) (nowStr autoStopStr : String) :
    ((findEntry s.cache config.project_id).isSome = true →
      create_sandbox s config nowStr autoStopStr =
        (.error (.valueError ("Sandbox for project " ++ config.project_id ++
          " already exists")), s)) ∧
    (∀ ports pm',
      findEntry s.cache config.project_id = none →
      s.pm.allocate_ports config.project_id = (.ok ports, pm') →
      (findContainer s.engine (container_name config.project_id)).isSome =
        true →
      create_sandbox s config nowStr autoStopStr =
        (.error (.dockerError ("409 Client Error: Conflict for container " ++
           container_name config.project_id)),
         { cache := s.cache, pm := s.pm,
           engine :=
             { containers := s.engine.containers,
               volumes :=
                 if s.engine.volumes.contains
                     (workspace_volume_name config.project_id) then
                   s.engine.volumes
                 else s.engine.volumes ++
                   [workspace_volume_name config.project_id] } })) := by
  constructor
  · intro hdup
    rw [create_sandbox]
    simp only [hdup, if_true]
  · intro ports pm' hmiss halloc hconflict
    have haux : allocatePortsAux port_ranges s.pm.allocated_ports =
        (.ok ports, pm'.allocated_ports) := by
      have h1 := congrArg Prod.fst halloc
      have h2 := congrArg Prod.snd halloc
      unfold PortManager.allocate_ports at h1 h2
      cases hrun : allocatePortsAux port_ranges s.pm.allocated_ports with
      | mk rr aa =>
        rw [hrun] at h1 h2
        simp only at h1 h2
        rw [h1, ← h2]
    obtain ⟨_, hfresh, _, hunion⟩ := allocatePortsAux_ok haux
    have hrestore : pm'.release_ports ports = s.pm := by
      rw [PortManager.release_ports, foldl_erase_eq_sdiff, hunion]
      cases hpm : s.pm with
      | mk alloc =>
        simp only [PortManager.mk.injEq]
        ext q
        simp only [Finset.mem_sdiff, Finset.mem_union, List.mem_toFinset]
        constructor
        · rintro ⟨hq | hq, hnq⟩
          · exact hq
          · exact absurd hq hnq
        · intro hq
          refine ⟨Or.inl hq, fun hmem => ?_⟩
          exact hfresh q hmem (by simpa [hpm] using hq)
    rw [create_sandbox]
    simp only [hmiss, Option.isSome_none, Bool.false_eq_true, if_false,
      halloc, hconflict, if_true, hrestore]

/-- C4 amendment witness: both branches at concrete states — a cached
duplicate is rejected with state unchanged, and an engine-only duplicate
fails with the conflict error while the volume is created. -/
theorem create_sandbox_duplicate_behaviour_witness :
    create_sandbox
        { cache := [{ pid := "p1", containerName := "suna-sandbox-p1",
                      ports := [], config := { project_id := "p1" },
                      created_at := "t", volume_name := "suna-workspace-p1" }],
          pm := ⟨∅⟩, engine := { containers := [], volumes := [] } }
        { project_id := "p1" } "t0" "t1" =
      (.error (.valueError "Sandbox for project p1 already exists"),
       { cache := [{ pid := "p1", containerName := "suna-sandbox-p1",
                     ports := [], config := { project_id := "p1" },
                     created_at := "t", volume_name := "suna-workspace-p1" }],
         pm := ⟨∅⟩, engine := { containers := [], volumes := [] } }) ∧
    create_sandbox preC4 { project_id := "p1" } "t0" "t1" =
      (.error (.dockerError
         "409 Client Error: Conflict for container suna-sandbox-p1"),
       { cache := [], pm := ⟨∅⟩,
         engine := { containers := preC4.engine.containers,
                     volumes := ["suna-workspace-p1"] } }) := by
  constructor
  · exact (create_sandbox_duplicate_behaviour _ _ _ _).1 (by decide)
  · have halloc : preC4.pm.allocate_ports "p1" =
        (.ok [("vnc", 15901), ("novnc", 16080), ("browser_api", 17788),
              ("file_server", 18080)],
         (preC4.pm.allocate_ports "p1").2) := by
      apply Prod.ext
      · rfl
      · rfl
    have h := (create_sandbox_duplicate_behaviour preC4
      { project_id := "p1" } "t0" "t1").2
      [("vnc", 15901), ("novnc", 16080), ("browser_api", 17788),
       ("file_server", 18080)]
      ((preC4.pm.allocate_ports "p1").2) rfl halloc (by decide)
    rw [h]
    rfl

/-! ## C5: cache reconstruction and the port allocator -/

/-- A fresh manager (empty cache, empty allocator) over an engine that
still runs `suna-sandbox-p1` with all four host-port bindings. -/
def preC5 : MgrState :=
  { cache := [], pm := ⟨∅⟩,
    engine :=
      { containers :=
          [{ name := "suna-sandbox-p1",
             labels := [("suna.project_id", "p1"), ("suna.created_at", "t0"),
                        ("suna.auto_stop_at", "t1")],
             bindings := [("5901/tcp", [15901]), ("6080/tcp", [16080]),
                          ("7788/tcp", [17788]), ("8080/tcp", [18080])],
             status := "running" }],
        volumes := ["suna-workspace-p1"] } }

/-- C5: `get_sandbox` reconstructs the cache entry from the container found
by name — recovering exactly the four bound host ports — but reserves
nothing in the port allocator: the allocated set stays empty, and the very
next allocation hands out `15901`, `16080`, `17788`, `18080` again, the
ports the live sandbox `p1` already holds. -/
theorem get_sandbox_reconstruction_reserves_nothing :
    (get_sandbox preC5 "p1").1 =
      .ok { id := "suna-sandbox-p1", name := "suna-sandbox-p1",
            status := "running",
            ports := [("vnc", 15901), ("novnc", 16080),
                      ("browser_api", 17788), ("file_server", 18080)],
            created_at := "t0" } ∧
    (get_sandbox preC5 "p1").2.pm.allocated_ports = ∅ ∧
    ((get_sandbox preC5 "p1").2.pm.allocate_ports "p2").1 =
      .ok [("vnc", 15901), ("novnc", 16080), ("browser_api", 17788),
           ("file_server", 18080)] := by
  exact ⟨rfl, rfl, rfl⟩

/-! ## C6: execute_command on a container that is not running -/

/-- C6: whenever the lookup succeeds but the container's status is not
`running`, the adapter's `execute_command` returns the structured failure
`{exit_code := -1, stdout := "", stderr := "Container is not running
(status: ...)", success := false}`; the result does not depend on
`engineExec`, so the engine's exec operation is never invoked. -/
theorem execute_command_not_running (s s' : MgrState) (info : SandboxInfo)
    (entry : CacheEntry) (c : ContainerRec)
    (engineExec : String → String → Except String ExecOut)
    (pid command workdir : String)
    (h1 : get_sandbox s pid = (.ok info, s'))
    (h2 : findEntry s'.cache pid = some entry)
    (h3 : findContainer s'.engine entry.containerName = some c)
    (h4 : c.status ≠ "running") :
    execute_command s engineExec pid command workdir =
      ({ exit_code := -1, stdout := "",
         stderr := "Container is not running (status: " ++ c.status ++ ")",
         success := false }, s') := by
  rw [execute_command, h1]
  dsimp only
  rw [h2]
  dsimp only
  rw [h3]
  dsimp only
  rw [if_pos h4]

/-- A manager whose cached sandbox `p1` exists in the engine with status
`exited`. -/
def preC6 : MgrState :=
  { cache := [{ pid := "p1", containerName := "suna-sandbox-p1",
                ports := [("vnc", 15901)],
                config := { project_id := "p1" }, created_at := "t0",
                volume_name := "suna-workspace-p1" }],
    pm := ⟨{15901}⟩,
    engine :=
      { containers := [{ name := "suna-sandbox-p1",
                         labels := [("suna.project_id", "p1")],
                         bindings := [], status := "exited" }],
        volumes := ["suna-workspace-p1"] } }

/-- C6 witness: the structured failure at a concrete exited container,
with an exec oracle that would have answered successfully had it been
consulted. -/
theorem execute_command_not_running_witness :
    execute_command preC6 (fun _ _ => .ok { exitCode := 0, output := "hi" })
        "p1" "ls" "/workspace" =
      ({ exit_code := -1, stdout := "",
         stderr := "Container is not running (status: exited)",
         success := false }, preC6) := by
  have h := execute_command_not_running preC6 preC6
    { id := "suna-sandbox-p1", name := "suna-sandbox-p1", status := "exited",
      ports := [("vnc", 15901)], created_at := "t0" }
    { pid := "p1", containerName := "suna-sandbox-p1",
      ports := [("vnc", 15901)],
      config := { project_id := "p1" }, created_at := "t0",
      volume_name := "suna-workspace-p1" }
    { name := "suna-sandbox-p1", labels := [("suna.project_id", "p1")],
      bindings := [], status := "exited" }
    (fun _ _ => .ok { exitCode := 0, output := "hi" })
    "p1" "ls" "/workspace" rfl rfl rfl (by decide)
  rw [h]
  rfl

/-! ## C10: success equals exit-code-zero in every branch -/

/-- C10: every result dictionary produced by the adapter's
`execute_command` — the lookup-failure branch, the cache/reload failure
branches, the container-not-running branch, the normal exec branch, and
the exception branch — satisfies `success = (exit_code == 0)`. -/
theorem execute_command_success_iff_exit_zero (s : MgrState)
    (engineExec : String → String → Except String ExecOut)
    (pid command workdir : String) :
    (execute_command s engineExec pid command workdir).1.success =
      ((execute_command s engineExec pid command workdir).1.exit_code == 0)
    := by
  rw [execute_command]
  split
  · rfl
  · split
    · rfl
    · split
      · rfl
      · split
        · rfl
        · split
          · rfl
          · rfl

/-! ## C7: the expiration sweep -/

def c7cached : ContainerRec :=
  { name := "suna-sandbox-p0",
    labels := [("suna.project_id", "p0"), ("suna.auto_stop_at", "2020")],
    bindings := [], status := "running" }

def c7orphan : ContainerRec :=
  { name := "suna-sandbox-p1",
    labels := [("suna.project_id", "p1"), ("suna.auto_stop_at", "2020")],
    bindings := [], status := "running" }

def c7future : ContainerRec :=
  { name := "suna-sandbox-p2",
    labels := [("suna.project_id", "p2"), ("suna.auto_stop_at", "2030")],
    bindings := [], status := "running" }

def c7bad : ContainerRec :=
  { name := "suna-sandbox-p3",
    labels := [("suna.project_id", "p3"), ("suna.auto_stop_at", "garbage")],
    bindings := [], status := "running" }

/-- Engine with four labelled sandboxes: `p0` expired and cached, `p1`
expired but absent from the manager's cache (e.g. after a restart), `p2`
expiring in the future, `p3` with a malformed timestamp.  Only `p0` is in
the cache. -/
def preC7 : MgrState :=
  { cache := [{ pid := "p0", containerName := "suna-sandbox-p0",
                ports := [("vnc", 15901)],
                config := { project_id := "p0" }, created_at := "t",
                volume_name := "suna-workspace-p0" }],
    pm := ⟨{15901}⟩,
    engine := { containers := [c7cached, c7orphan, c7future, c7bad],
                volumes := ["suna-workspace-p0"] } }

/-- `datetime.fromisoformat` on the label values of `preC7`. -/
def parseC7 : String → Option Int := fun t =>
  if t = "2020" then some 2020
  else if t = "2030" then some 2030
  else none

def postC7 : MgrState := cleanup_expired_sandboxes preC7 parseC7 2025

/-- C7: one sweep at time 2025 deletes the cached expired sandbox `p0`
(container gone, cache entry gone, port released), correctly keeps the
future `p2` and skips the malformed `p3` without failing — but the expired
`p1`, found via its label yet absent from the cache, is NOT deleted:
`delete_sandbox` only consults the cache, raises, and the error is merely
logged.  This contradicts the claim that every expired sandbox container is
deleted by one invocation. -/
theorem cleanup_expired_leaves_uncached_expired :
    findContainer postC7.engine "suna-sandbox-p0" = none ∧
    findEntry postC7.cache "p0" = none ∧
    postC7.pm.allocated_ports = ∅ ∧
    c7orphan ∈ postC7.engine.containers ∧
    c7future ∈ postC7.engine.containers ∧
    c7bad ∈ postC7.engine.containers := by
  refine ⟨rfl, rfl, by decide, ?_, ?_, ?_⟩ <;> decide

/-! ## C8: get_workspace and error propagation -/

/-- A manager whose cache holds `p1` while the engine no longer has the
container: the reload inside `get_sandbox` raises the engine's not-found
error, which is not a `ValueError`. -/
def preC8 : MgrState :=
  { cache := [{ pid := "p1", containerName := "suna-sandbox-p1",
                ports := [], config := { project_id := "p1" },
                created_at := "t", volume_name := "suna-workspace-p1" }],
    pm := ⟨∅⟩, engine := { containers := [], volumes := [] } }

/-- C8 counterexample: the underlying lookup fails with an engine (docker)
error — not the `ValueError` that encodes NotFound — yet `get_workspace`
still returns `none` instead of propagating, so "every other kind of error
propagates to the caller" is false. -/
theorem get_workspace_swallows_engine_error :
    (get_sandbox preC8 "p1").1 =
      .error (.dockerError
        "404 Client Error: no such container suna-sandbox-p1") ∧
    (get_workspace preC8 "p1").1 = none := by
  exact ⟨rfl, rfl⟩

/-- C8 amended: `get_workspace` never propagates any error: it returns the
workspace view when the lookup succeeds and `none` on every lookup failure
(`ValueError`/NotFound silently, any other exception after logging), the
manager state evolving exactly as the lookup left it. -/
theorem get_workspace_none_iff_lookup_failed (s : MgrState) (pid : String) :
    (get_workspace s pid).1 =
      (match (get_sandbox s pid).1 with
       | .ok info => some (mkWorkspace pid info)
       | .error _ => none) ∧
    (get_workspace s pid).2 = (get_sandbox s pid).2 := by
  rcases hgs : get_sandbox s pid with ⟨r, s2⟩
  rw [get_workspace, hgs]
  cases r with
  | ok info => exact ⟨rfl, rfl⟩
  | error e => cases e <;> exact ⟨rfl, rfl⟩

/-! ## Readiness probe (`LocalSandboxManager._wait_for_services`) (C9)

Wall-clock loops (`while time.time() - start_time < …`) are embedded with
a fuel argument: the number of poll iterations the deadline admits.  Each
`exec_run` probe is an oracle `Nat → String → Except String Int` (poll
round, service name → exit code, or a raised exception — the source wraps
every probe in `try/except`, so both shapes are handled).  The returned
record carries the readiness bookkeeping the source maintains plus the
probes performed, the `Missing: …` warning of the `while/else` timeout
branch, and the unconditional trailing 5-second settle sleep. -/

/-- `services_to_check`, in dict insertion order (note `file_server`
before `browser_api`, as in the source). -/
def services_to_check : List (String × Nat) :=
  [("vnc", 5901), ("novnc", 6080), ("file_server", 8080),
   ("browser_api", 7788)]

/-- One `for service, port in services_to_check.items()` pass: probe each
service not yet marked ready; an exit code 0 marks it ready, anything else
(or an exception) clears `all_ready`.  Returns the updated ready list, the
probes performed in this pass, and the final `all_ready` flag. -/
def passOnce (probe : Nat → String → Except String Int) (iter : Nat) :
    List (String × Nat) → List String →
    List String × List (Nat × String) × Bool
  | [], ready => (ready, [], true)
  | (svc, _port) :: rest, ready =>
    if svc ∈ ready then
      passOnce probe iter rest ready
    else
      match probe iter svc with
      | .ok code =>
        if code = 0 then
          let r := passOnce probe iter rest (ready ++ [svc])
          (r.1, (iter, svc) :: r.2.1, r.2.2)
        else
          let r := passOnce probe iter rest ready
          (r.1, (iter, svc) :: r.2.1, false)
      | .error _ =>
        let r := passOnce probe iter rest ready
        (r.1, (iter, svc) :: r.2.1, false)

structure ProbePhase where
  ready : List String
  trace : List (Nat × String)
  loggedMissing : Option (List String)
deriving DecidableEq

/-- The service-phase `while … < timeout` loop with its `else` branch: on
fuel exhaustion, log the not-ready services (in `services_to_check`
order); on a pass with `all_ready` still true, break without logging. -/
def servicePhase (probe : Nat → String → Except String Int) :
    Nat → Nat → List String → ProbePhase
  | 0, _iter, ready =>
    { ready := ready, trace := [],
      loggedMissing := some ((services_to_check.map Prod.fst).filter
        (fun svc => decide (svc ∉ ready))) }
  | fuel + 1, iter, ready =>
    let p := passOnce probe iter services_to_check ready
    if p.2.2 then
      { ready := p.1, trace := p.2.1, loggedMissing := none }
    else
      let rest := servicePhase probe fuel (iter + 1) p.1
      { ready := rest.ready, trace := p.2.1 ++ rest.trace,
        loggedMissing := rest.loggedMissing }

/-- The supervisord phase (`pgrep supervisord` every 2 s for up to 30 s);
it only yields the `supervisord_ready` flag. -/
def supervisorPhase (probeSup : Nat → Except String Int) :
    Nat → Nat → Bool
  | 0, _iter => false
  | fuel + 1, iter =>
    match probeSup iter with
    | .ok code =>
      if code = 0 then true else supervisorPhase probeSup fuel (iter + 1)
    | .error _ => supervisorPhase probeSup fuel (iter + 1)

structure WaitResult where
  supervisordReady : Bool
  ready : List String
  trace : List (Nat × String)
  loggedMissing : Option (List String)
  settled : Bool
deriving DecidableEq

/-- `_wait_for_services`: supervisor phase, then the service phase, then
the unconditional 5-second settle sleep (`settled`). -/
def wait_for_services (probeSup : Nat → Except String Int)
    (probe : Nat → String → Except String Int)
    (supFuel svcFuel : Nat) : WaitResult :=
  let sup := supervisorPhase probeSup supFuel 0
  let svc := servicePhase probe svcFuel 0 []
  { supervisordReady := sup, ready := svc.ready, trace := svc.trace,
    loggedMissing := svc.loggedMissing, settled := true }

theorem passOnce_mono (probe : Nat → String → Except String Int)
    (iter : Nat) (services : List (String × Nat)) (ready : List String) :
    ready ⊆ (passOnce probe iter services ready).1 := by
  induction services generalizing ready with
  | nil => exact fun _ h => h
  | cons sp rest ih =>
    obtain ⟨s0, port⟩ := sp
    by_cases hmem : s0 ∈ ready
    · rw [passOnce, if_pos hmem]
      exact ih ready
    · rw [passOnce, if_neg hmem]
      cases hp : probe iter s0 with
      | ok code =>
        dsimp only
        by_cases hc : code = 0
        · rw [if_pos hc]
          dsimp only
          exact fun x hx => ih (ready ++ [s0]) (List.mem_append_left _ hx)
        · rw [if_neg hc]
          dsimp only
          exact fun x hx => ih ready hx
      | error e =>
        dsimp only
        exact fun x hx => ih ready hx

theorem passOnce_trace (probe : Nat → String → Except String Int)
    (iter : Nat) (services : List (String × Nat)) (ready : List String) :
    ∀ i svc, (i, svc) ∈ (passOnce probe iter services ready).2.1 →
      i = iter ∧ svc ∉ ready := by
  induction services generalizing ready with
  | nil => intro i svc h; exact absurd h (List.not_mem_nil _)
  | cons sp rest ih =>
    obtain ⟨s0, port⟩ := sp
    intro i svc h
    by_cases hmem : s0 ∈ ready
    · rw [passOnce, if_pos hmem] at h
      exact ih ready i svc h
    · rw [passOnce, if_neg hmem] at h
      cases hp : probe iter s0 with
      | ok code =>
        rw [hp] at h
        dsimp only at h
        by_cases hc : code = 0
        · rw [if_pos hc] at h
          dsimp only at h
          rcases List.mem_cons.mp h with heq | htail
          · rw [Prod.mk.injEq] at heq
            obtain ⟨rfl, rfl⟩ := heq
            exact ⟨rfl, hmem⟩
          · obtain ⟨hi, hn⟩ := ih (ready ++ [s0]) i svc htail
            exact ⟨hi, fun hin => hn (List.mem_append_left _ hin)⟩
        · rw [if_neg hc] at h
          dsimp only at h
          rcases List.mem_cons.mp h with heq | htail
          · rw [Prod.mk.injEq] at heq
            obtain ⟨rfl, rfl⟩ := heq
            exact ⟨rfl, hmem⟩
          · exact ih ready i svc htail
      | error e =>
        rw [hp] at h
        dsimp only at h
        rcases List.mem_cons.mp h with heq | htail
        · rw [Prod.mk.injEq] at heq
          obtain ⟨rfl, rfl⟩ := heq
          exact ⟨rfl, hmem⟩
        · exact ih ready i svc htail

theorem passOnce_ok_mem (probe : Nat → String → Except String Int)
    (iter : Nat) (services : List (String × Nat)) (ready : List String) :
    ∀ i svc, (i, svc) ∈ (passOnce probe iter services ready).2.1 →
      probe iter svc = .ok 0 →
      svc ∈ (passOnce probe iter services ready).1 := by
  induction services generalizing ready with
  | nil => intro i svc h _; exact absurd h (List.not_mem_nil _)
  | cons sp rest ih =>
    obtain ⟨s0, port⟩ := sp
    intro i svc h hok
    by_cases hmem : s0 ∈ ready
    · rw [passOnce, if_pos hmem] at h ⊢
      exact ih ready i svc h hok
    · rw [passOnce, if_neg hmem] at h ⊢
      cases hp : probe iter s0 with
      | ok code =>
        rw [hp] at h
        dsimp only at h ⊢
        by_cases hc : code = 0
        · rw [if_pos hc] at h ⊢
          dsimp only at h ⊢
          rcases List.mem_cons.mp h with heq | htail
          · rw [Prod.mk.injEq] at heq
            obtain ⟨rfl, rfl⟩ := heq
            exact passOnce_mono probe _ rest _
              (List.mem_append_right _ (List.mem_singleton_self _))
          · exact ih (ready ++ [s0]) i svc htail hok
        · rw [if_neg hc] at h ⊢
          dsimp only at h ⊢
          rcases List.mem_cons.mp h with heq | htail
          · rw [Prod.mk.injEq] at heq
            obtain ⟨rfl, rfl⟩ := heq
            rw [hok] at hp
            injection hp with h0
            exact absurd h0.symm hc
          · exact ih ready i svc htail hok
      | error e =>
        rw [hp] at h
        dsimp only at h ⊢
        rcases List.mem_cons.mp h with heq | htail
        · rw [Prod.mk.injEq] at heq
          obtain ⟨rfl, rfl⟩ := heq
          rw [hok] at hp
          exact Except.noConfusion hp
        · exact ih ready i svc htail hok

theorem passOnce_allReady (probe : Nat → String → Except String Int)
    (iter : Nat) (services : List (String × Nat)) (ready : List String) :
    (passOnce probe iter services ready).2.2 = true →
      ∀ sp ∈ services, sp.1 ∈ (passOnce probe iter services ready).1 := by
  induction services generalizing ready with
  | nil => intro _ sp hsp; exact absurd hsp (List.not_mem_nil _)
  | cons sp0 rest ih =>
    obtain ⟨s0, port⟩ := sp0
    intro hflag sp hsp
    by_cases hmem : s0 ∈ ready
    · rw [passOnce, if_pos hmem] at hflag ⊢
      rcases List.mem_cons.mp hsp with rfl | hsp
      · exact passOnce_mono probe iter rest ready hmem
      · exact ih ready hflag sp hsp
    · rw [passOnce, if_neg hmem] at hflag ⊢
      cases hp : probe iter s0 with
      | ok code =>
        rw [hp] at hflag
        dsimp only at hflag ⊢
        by_cases hc : code = 0
        · rw [if_pos hc] at hflag ⊢
          dsimp only at hflag ⊢
          rcases List.mem_cons.mp hsp with rfl | hsp
          · exact passOnce_mono probe iter rest (ready ++ [s0])
              (List.mem_append_right _ (List.mem_singleton_self s0))
          · exact ih (ready ++ [s0]) hflag sp hsp
        · rw [if_neg hc] at hflag
          dsimp only at hflag
          simp at hflag
      | error e =>
        rw [hp] at hflag
        dsimp only at hflag
        simp at hflag

theorem servicePhase_mono (probe : Nat → String → Except String Int) :
    ∀ fuel iter ready,
      ready ⊆ (servicePhase probe fuel iter ready).ready := by
  intro fuel
  induction fuel with
  | zero => exact fun iter ready x hx => hx
  | succ fuel ih =>
    intro iter ready
    rw [servicePhase]
    dsimp only
    split
    · exact passOnce_mono probe iter services_to_check ready
    · exact fun x hx =>
        ih (iter + 1) _ (passOnce_mono probe iter services_to_check ready hx)

theorem servicePhase_trace (probe : Nat → String → Except String Int) :
    ∀ fuel iter ready i svc,
      (i, svc) ∈ (servicePhase probe fuel iter ready).trace →
      iter ≤ i ∧ svc ∉ ready := by
  intro fuel
  induction fuel with
  | zero => intro iter ready i svc h; exact absurd h (List.not_mem_nil _)
  | succ fuel ih =>
    intro iter ready i svc h
    rw [servicePhase] at h
    dsimp only at h
    split at h
    · obtain ⟨hi, hn⟩ :=
        passOnce_trace probe iter services_to_check ready i svc h
      exact ⟨le_of_eq hi.symm, hn⟩
    · dsimp only at h
      rcases List.mem_append.mp h with h | h
      · obtain ⟨hi, hn⟩ :=
          passOnce_trace probe iter services_to_check ready i svc h
        exact ⟨le_of_eq hi.symm, hn⟩
      · obtain ⟨hi, hn⟩ := ih (iter + 1) _ i svc h
        refine ⟨by omega, fun hin => ?_⟩
        exact hn (passOnce_mono probe iter services_to_check ready hin)

theorem servicePhase_no_reprobe (probe : Nat → String → Except String Int) :
    ∀ fuel iter ready i svc j,
      (i, svc) ∈ (servicePhase probe fuel iter ready).trace →
      probe i svc = .ok 0 →
      (j, svc) ∈ (servicePhase probe fuel iter ready).trace →
      j ≤ i := by
  intro fuel
  induction fuel with
  | zero => intro iter ready i svc j h; exact absurd h (List.not_mem_nil _)
  | succ fuel ih =>
    intro iter ready i svc j hi hok hj
    rw [servicePhase] at hi hj
    dsimp only at hi hj
    by_cases hcond :
        (passOnce probe iter services_to_check ready).2.2 = true
    · rw [if_pos hcond] at hi hj
      dsimp only at hi hj
      obtain ⟨hj_eq, _⟩ :=
        passOnce_trace probe iter services_to_check ready j svc hj
      obtain ⟨hi_eq, _⟩ :=
        passOnce_trace probe iter services_to_check ready i svc hi
      omega
    · rw [if_neg hcond] at hi hj
      dsimp only at hi hj
      rcases List.mem_append.mp hi with hi | hi
      · obtain ⟨hi_eq, _⟩ :=
          passOnce_trace probe iter services_to_check ready i svc hi
        have hok' : probe iter svc = .ok 0 := hi_eq ▸ hok
        have hsvc_ready :
            svc ∈ (passOnce probe iter services_to_check ready).1 :=
          passOnce_ok_mem probe iter services_to_check ready i svc hi hok'
        rcases List.mem_append.mp hj with hj | hj
        · obtain ⟨hj_eq, _⟩ :=
            passOnce_trace probe iter services_to_check ready j svc hj
          omega
        · obtain ⟨_, hn⟩ := servicePhase_trace probe fuel (iter + 1) _ j svc hj
          exact absurd hsvc_ready hn
      · obtain ⟨hi_ge, _⟩ := servicePhase_trace probe fuel (iter + 1) _ i svc hi
        rcases List.mem_append.mp hj with hj | hj
        · obtain ⟨hj_eq, _⟩ :=
            passOnce_trace probe iter services_to_check ready j svc hj
          omega
        · exact ih (iter + 1) _ i svc j hi hok hj

theorem servicePhase_logged_none (probe : Nat → String → Except String Int) :
    ∀ fuel iter ready,
      (servicePhase probe fuel iter ready).loggedMissing = none →
      ∀ sp ∈ services_to_check,
        sp.1 ∈ (servicePhase probe fuel iter ready).ready := by
  intro fuel
  induction fuel with
  | zero => intro iter ready h; simp [servicePhase] at h
  | succ fuel ih =>
    intro iter ready h sp hsp
    rw [servicePhase] at h ⊢
    dsimp only at h ⊢
    by_cases hcond :
        (passOnce probe iter services_to_check ready).2.2 = true
    · rw [if_pos hcond]
      exact passOnce_allReady probe iter services_to_check ready hcond sp hsp
    · rw [if_neg hcond] at h ⊢
      dsimp only at h ⊢
      exact ih (iter + 1) _ h sp hsp

theorem servicePhase_logged_some (probe : Nat → String → Except String Int) :
    ∀ fuel iter ready l,
      (servicePhase probe fuel iter ready).loggedMissing = some l →
      l = (services_to_check.map Prod.fst).filter
        (fun svc => decide (svc ∉ (servicePhase probe fuel iter ready).ready))
    := by
  intro fuel
  induction fuel with
  | zero =>
    intro iter ready l h
    rw [servicePhase] at h ⊢
    dsimp only at h ⊢
    injection h with h
    exact h.symm
  | succ fuel ih =>
    intro iter ready l h
    rw [servicePhase] at h ⊢
    dsimp only at h ⊢
    by_cases hcond :
        (passOnce probe iter services_to_check ready).2.2 = true
    · rw [if_pos hcond] at h
      dsimp only at h
      exact absurd h (by simp)
    · rw [if_neg hcond] at h ⊢
      dsimp only at h ⊢
      exact ih (iter + 1) _ l h

/-- C9: the readiness probe always returns normally (it yields a result
record whose `settled` flag reflects the unconditional trailing 5-second
delay for every execution path, probe exceptions being handled inside the
loops); when the `while`-loop budget expires the set of not-ready roles is
logged and nothing is raised (the sandbox is soft-ready), the logged set
being exactly the services not marked ready; when no timeout is logged all
four services are ready; and a port is never probed again after the probe
that marked it ready. -/
theorem wait_for_services_soft_ready (probeSup : Nat → Except String Int)
    (probe : Nat → String → Except String Int) (supFuel svcFuel : Nat) :
    (wait_for_services probeSup probe supFuel svcFuel).settled = true ∧
    ((wait_for_services probeSup probe supFuel svcFuel).loggedMissing =
        none →
      ∀ sp ∈ services_to_check,
        sp.1 ∈ (wait_for_services probeSup probe supFuel svcFuel).ready) ∧
    (∀ l,
      (wait_for_services probeSup probe supFuel svcFuel).loggedMissing =
        some l →
      l = (services_to_check.map Prod.fst).filter
        (fun svc => decide
          (svc ∉ (wait_for_services probeSup probe supFuel svcFuel).ready)))
    ∧
    (∀ i svc j,
      (i, svc) ∈ (wait_for_services probeSup probe supFuel svcFuel).trace →
      probe i svc = .ok 0 →
      (j, svc) ∈ (wait_for_services probeSup probe supFuel svcFuel).trace →
      j ≤ i) := by
  refine ⟨rfl, ?_, ?_, ?_⟩
  · exact fun h sp hsp => servicePhase_logged_none probe svcFuel 0 [] h sp hsp
  · exact fun l h => servicePhase_logged_some probe svcFuel 0 [] l h
  · exact fun i svc j hi hok hj =>
      servicePhase_no_reprobe probe svcFuel 0 [] i svc j hi hok hj

/-- C9 witness: one poll round against a probe oracle that always raises —
the call returns (settled), logging all four roles as missing. -/
theorem wait_for_services_soft_ready_witness :
    (wait_for_services (fun _ => .ok 0) (fun _ _ => .error "probe failed")
      1 1).settled = true ∧
    ["vnc", "novnc", "file_server", "browser_api"] =
      (services_to_check.map Prod.fst).filter
        (fun svc => decide
          (svc ∉ (wait_for_services (fun _ => .ok 0)
            (fun _ _ => .error "probe failed") 1 1).ready)) := by
  have h := wait_for_services_soft_ready (fun _ => .ok 0)
    (fun _ _ => .error "probe failed") 1 1
  exact ⟨h.1, h.2.2.1 ["vnc", "novnc", "file_server", "browser_api"]
    (by decide)⟩

end Sandbox
